import Mathlib

/-!
Verification of the ChessGPT backend's analysis subsystem against its
specification.  Python functions from `backend/app` are shallowly embedded as
Lean functions: Python `float` values are modelled as exact rationals,
`None`-able values as `Option`, database rows as structures, and raised
exceptions as `Except` errors.
-/
namespace ChessGPT

/-! ## Move classification (`AnalysisService.classify_move`) -/
/-- Classification labels returned by `classify_move`. -/
inductive MoveClass where
  | book
  | best
  | excellent
  | good
  | inaccuracy
  | mistake
  | blunder
deriving DecidableEq, Repr

/-- Embedding of the Python idiom `(x / 100) if x else 0`: both `None` and
`0.0` are falsy, so they map to `0`; any other value is divided by `100`. -/
def pawnsOf : Option ℚ → ℚ
  | none => 0
  | some x => if x = 0 then 0 else x / 100

/-- `AnalysisService.classify_move` (analysis_service.py, lines 30-101).
`cp_loss`, `eval_before`, `eval_after` are the Python arguments; a `none`
`cp_loss` yields `book`.  The positional branches additionally test
`is not None` exactly where the source does. -/
def classify_move (cp_loss eval_before eval_after : Option ℚ) : MoveClass :=
  match cp_loss with
  | none => .book
  | some cpl =>
    let abs_loss := |cpl|
    if abs_loss ≤ 10 then .best
    else if abs_loss ≤ 25 then .excellent
    else if abs_loss ≤ 50 then .good
    else
      let b := pawnsOf eval_before
      let a := pawnsOf eval_after
      if eval_before.isSome ∧ eval_after.isSome ∧ 3/2 < b ∧ a < -(3/2) then .blunder
      else if eval_before.isSome ∧ eval_after.isSome ∧ |b| < 1/2 ∧ a < -2 then .blunder
      else if eval_before.isSome ∧ eval_after.isSome ∧ 1/2 ≤ b ∧ b ≤ 3/2 ∧ a < -2 then
        .blunder
      else if 300 ≤ abs_loss then .blunder
      else if eval_before.isSome ∧ eval_after.isSome ∧ 2 < b ∧ -(1/2) ≤ a ∧ a ≤ 1/2 then
        .mistake
      else if eval_before.isSome ∧ eval_after.isSome ∧ 5/2 < b ∧ 1/2 < a ∧ a < 3/2 then
        .mistake
      else if 150 ≤ abs_loss ∧ abs_loss < 300 then .mistake
      else if 50 < abs_loss ∧ abs_loss < 150 then
        if eval_after.isSome ∧ -1 < a then .inaccuracy else .mistake
      else .good

/-- The spec's ordered classification table (spec §4.B), written from its
words: rules are tried first-match-wins; when an evaluation is missing the
numeric-only branches still apply and the positional branches are skipped. -/
def classifySpecTable (cp_loss eval_before eval_after : Option ℚ) : MoveClass :=
  match cp_loss with
  | none => .book
  | some cpl =>
    if |cpl| ≤ 10 then .best
    else if |cpl| ≤ 25 then .excellent
    else if |cpl| ≤ 50 then .good
    else
      match eval_before, eval_after with
      | some eb, some ea =>
        let b := eb / 100
        let a := ea / 100
        if b > 3/2 ∧ a < -(3/2) then .blunder
        else if |b| < 1/2 ∧ a < -2 then .blunder
        else if 1/2 ≤ b ∧ b ≤ 3/2 ∧ a < -2 then .blunder
        else if |cpl| ≥ 300 then .blunder
        else if b > 2 ∧ -(1/2) ≤ a ∧ a ≤ 1/2 then .mistake
        else if b > 5/2 ∧ 1/2 < a ∧ a < 3/2 then .mistake
        else if 150 ≤ |cpl| ∧ |cpl| < 300 then .mistake
        else if 50 < |cpl| ∧ |cpl| < 150 then
          if a > -1 then .inaccuracy else .mistake
        else .good
      | none, some ea =>
        if |cpl| ≥ 300 then .blunder
        else if 150 ≤ |cpl| ∧ |cpl| < 300 then .mistake
        else if 50 < |cpl| ∧ |cpl| < 150 then
          if ea / 100 > -1 then .inaccuracy else .mistake
        else .good
      | _, none =>
        if |cpl| ≥ 300 then .blunder
        else if 150 ≤ |cpl| ∧ |cpl| < 300 then .mistake
        else if 50 < |cpl| ∧ |cpl| < 150 then .mistake
        else .good

/-! ## The move analyzer (`AnalysisService.analyze_game`)

The analyzer drives one UCI engine subprocess over the game's positions.  The
chess library is abstracted away: a parsed PGN is modelled as the side to move
of the initial position (White unless a FEN header says otherwise) together
with the materialized mainline move list, and each loop iteration's three
`engine.analyse` results are supplied by an oracle `ℕ → EngineIter` (a `none`
evaluation models a raised engine exception or a missing score, exactly the
cases the source maps to `None`).  Coach commentary is likewise supplied by an
oracle `ℕ → Option String` covering generation, timeout and failure. -/
/-- One mainline move: its SAN and UCI strings. -/
structure MoveIn where
  san : String
  uci : String
deriving DecidableEq, Repr

/-- The engine responses consumed by iteration `i` of the analysis loop:
`get_evaluation_cp(info_before)`, `info_best.get("pv", [None])[0]`, and
`get_evaluation_cp(info_after)`. -/
structure EngineIter where
  evalBefore : Option ℚ
  bestUci : Option String
  evalAfter : Option ℚ
deriving DecidableEq, Repr

/-- A parsed PGN game: initial side to move plus the mainline moves. -/
structure ParsedGame where
  startWhite : Bool
  moves : List MoveIn
deriving DecidableEq, Repr

/-- One entry of the `moves_analysis` list built by `analyze_game`
(analysis_service.py, lines 296-309). -/
structure MoveRecord where
  move_number : ℕ
  is_white : Bool
  half_move : ℕ
  move_san : String
  move_uci : String
  evaluation_before : Option ℚ
  evaluation_after : Option ℚ
  best_move_uci : Option String
  classification : MoveClass
  centipawn_loss : Option ℚ
  coach_commentary : Option String
deriving DecidableEq, Repr

/-- The mutable locals of the `analyze_game` loop.  `engine_calls` is ghost
instrumentation counting issued `engine.analyse` invocations. -/
structure LoopState where
  moves_analysis : List MoveRecord
  total_cp_loss : ℚ
  num_analyzed_moves : ℕ
  blunders : ℕ
  mistakes : ℕ
  inaccuracies : ℕ
  coach_count : ℕ
  move_number : ℕ
  half_move : ℕ
  engine_calls : ℕ
deriving DecidableEq, Repr

/-- Loop-local initial values (analysis_service.py, lines 137-155). -/
def initState : LoopState :=
  { moves_analysis := [], total_cp_loss := 0, num_analyzed_moves := 0,
    blunders := 0, mistakes := 0, inaccuracies := 0, coach_count := 0,
    move_number := 1, half_move := 0, engine_calls := 0 }

/-- `should_analyze` (analysis_service.py, lines 227 and 242): the move was
made by the user's color. -/
def shouldAnalyze (is_white_move is_user_white : Bool) : Bool :=
  (is_white_move && is_user_white) || (!is_white_move && !is_user_white)

/-- Tail of one loop iteration (analysis_service.py, lines 241-314): error
counters, coach commentary (capped at 5), the appended record, and the
`move_number`/`half_move` bookkeeping. -/
def emitRecord (is_user_white : Bool) (m : MoveIn) (is_white_move : Bool)
    (best : Option String) (coachOut : Option String)
    (cp_loss storedBefore storedAfter : Option ℚ) (cls : MoveClass)
    (s : LoopState) : LoopState :=
  let sa := shouldAnalyze is_white_move is_user_white
  let eligible := sa && (cls = MoveClass.blunder || cls = MoveClass.mistake) &&
    decide (s.coach_count < 5)
  let commentary := if eligible then coachOut else none
  { s with
    blunders := if sa && cls = MoveClass.blunder then s.blunders + 1 else s.blunders,
    mistakes := if sa && cls = MoveClass.mistake then s.mistakes + 1 else s.mistakes,
    inaccuracies :=
      if sa && cls = MoveClass.inaccuracy then s.inaccuracies + 1 else s.inaccuracies,
    coach_count := if commentary.isSome then s.coach_count + 1 else s.coach_count,
    moves_analysis := s.moves_analysis ++
      [{ move_number := s.move_number, is_white := is_white_move,
         half_move := s.half_move, move_san := m.san, move_uci := m.uci,
         evaluation_before := storedBefore, evaluation_after := storedAfter,
         best_move_uci := best, classification := cls, centipawn_loss := cp_loss,
         coach_commentary := commentary }],
    move_number := if is_white_move then s.move_number else s.move_number + 1,
    half_move := s.half_move + 1 }

/-- One iteration of the analysis loop (analysis_service.py, lines 173-314).
Three `engine.analyse` calls are issued unconditionally.  When both
evaluations are present they are negated for a black move, `cp_loss` is their
difference and the stored `evaluation_after` is the negated (possibly already
flipped) post-move evaluation.  A black move with `eval_before` present and
`eval_after` missing raises `TypeError` at the classification flip
(line 237 negates `None`), aborting the whole analysis. -/
def analyzeStep (is_user_white : Bool) (m : MoveIn) (is_white_move : Bool)
    (eng : EngineIter) (coachOut : Option String) (s : LoopState) :
    Except (String × LoopState) LoopState :=
  let s0 := { s with engine_calls := s.engine_calls + 3 }
  match eng.evalBefore, eng.evalAfter with
  | some eb0, some ea0 =>
    let eb := if is_white_move then eb0 else -eb0
    let ea := if is_white_move then ea0 else -ea0
    let cp := eb - ea
    let sa := shouldAnalyze is_white_move is_user_white
    let s1 := { s0 with
      total_cp_loss := if sa then s0.total_cp_loss + max 0 cp else s0.total_cp_loss,
      num_analyzed_moves :=
        if sa then s0.num_analyzed_moves + 1 else s0.num_analyzed_moves }
    let ebc := if is_white_move then eb0 else -eb0
    let eac := if is_white_move then ea0 else -ea0
    let cls := classify_move (some cp) (some ebc) (some eac)
    .ok (emitRecord is_user_white m is_white_move eng.bestUci coachOut
      (some cp) (some eb) (some (-ea)) cls s1)
  | some eb0, none =>
    if is_white_move then
      .ok (emitRecord is_user_white m is_white_move eng.bestUci coachOut
        none (some eb0) none (classify_move none (some eb0) none) s0)
    else
      .error ("bad operand type for unary -: NoneType", s0)
  | none, eaOpt =>
    .ok (emitRecord is_user_white m is_white_move eng.bestUci coachOut
      none none (eaOpt.map (fun x => -x)) (classify_move none none eaOpt) s0)

/-- The analysis loop: iterate `analyzeStep` over the alternating-color move
list, threading the iteration index `i` (feeding the oracles) and the current
side to move `w`.  An in-loop exception aborts the run. -/
def runMoves (is_user_white : Bool) (eng : ℕ → EngineIter)
    (coach : ℕ → Option String) :
    List MoveIn → Bool → ℕ → LoopState → Except (String × LoopState) LoopState
  | [], _, _, s => .ok s
  | m :: rest, w, i, s =>
    match analyzeStep is_user_white m w (eng i) (coach i) s with
    | .error e => .error e
    | .ok s1 => runMoves is_user_white eng coach rest (!w) (i + 1) s1

/-- Aggregate game statistics (analysis_service.py, lines 318-337). -/
structure GameStats where
  num_moves : ℕ
  average_centipawn_loss : Option ℚ
  accuracy : Option ℚ
  num_blunders : ℕ
  num_mistakes : ℕ
  num_inaccuracies : ℕ
deriving DecidableEq, Repr

/-- Build the returned `stats` dict from the final loop state: the average
divides only when `num_analyzed_moves > 0`, and accuracy is
`clamp(100 − avg/10, 0, 100)` when the average exists. -/
def mkStats (s : LoopState) : GameStats :=
  let avg : Option ℚ :=
    if 0 < s.num_analyzed_moves then
      some (s.total_cp_loss / (s.num_analyzed_moves : ℚ))
    else none
  { num_moves := s.moves_analysis.length,
    average_centipawn_loss := avg,
    accuracy := match avg with
      | none => none
      | some l => some (max 0 (min 100 (100 - l / 10))),
    num_blunders := s.blunders,
    num_mistakes := s.mistakes,
    num_inaccuracies := s.inaccuracies }

/-- Result of `analyze_game`: the error dict or the moves + stats dict. -/
inductive AnalysisResult where
  | failure (msg : String)
  | ok (moves : List MoveRecord) (stats : GameStats)
deriving DecidableEq, Repr

/-- `AnalysisService.analyze_game` (analysis_service.py, lines 123-341).
`pg` is the `parse_pgn` result (`none` on parse failure), `spawnOk` models
whether `popen_uci` succeeds, and the returned `ℕ` is ghost instrumentation:
the number of `engine.analyse` calls issued during the run. -/
def analyze_game (pg : Option ParsedGame) (is_user_white : Bool)
    (spawnOk : Bool) (eng : ℕ → EngineIter) (coach : ℕ → Option String) :
    AnalysisResult × ℕ :=
  match pg with
  | none => (.failure "Failed to parse PGN", 0)
  | some g =>
    if spawnOk then
      match runMoves is_user_white eng coach g.moves g.startWhite 0 initState with
      | .error (msg, s) => (.failure msg, s.engine_calls)
      | .ok s => (.ok s.moves_analysis (mkStats s), s.engine_calls)
    else (.failure "engine spawn failed", 0)

/-- Color of the `j`-th move when the first processed move is played by `w0`:
the board's side to move alternates along the mainline. -/
def flagAt (w0 : Bool) (j : ℕ) : Bool := if j % 2 = 0 then w0 else !w0

/-- Number of black moves among the first `j` moves when the first move is
played by `w0`. -/
def blacksBefore (w0 : Bool) (j : ℕ) : ℕ := if w0 then j / 2 else (j + 1) / 2

/-- Engine oracle answering every `analyse` call with no score and no pv. -/
def engNone : ℕ → EngineIter := fun _ => ⟨none, none, none⟩

/-- Engine oracle answering every call with POV evaluations `b` (before) and
`a` (after) and best move `e2e4`. -/
def engBoth (b a : ℚ) : ℕ → EngineIter := fun _ => ⟨some b, some "e2e4", some a⟩

/-- Coach oracle that never produces commentary. -/
def coachNone : ℕ → Option String := fun _ => none

/-- Length of the parsed game's move list (0 for a parse failure). -/
def pgMoves : Option ParsedGame → ℕ
  | none => 0
  | some g => g.moves.length

/-- Single analyzed move produced by a one-move white game under the
`engBoth 50 30` oracle. -/
def C2grec : MoveRecord :=
  ⟨1, true, 0, "e4", "e2e4", some 50, some (-30), some "e2e4", .excellent,
    some 20, none⟩

/-- Stats of that one-move run. -/
def C2gstat : GameStats := ⟨1, some 20, some 98, 0, 0, 0⟩

/-- Record produced by a one-move all-`none` analysis of a white-start game. -/
def oneMoveNoneRec : MoveRecord :=
  ⟨1, true, 0, "e4", "e2e4", none, none, none, .book, none, none⟩

/-- Stats of that run. -/
def oneMoveNoneStat : GameStats := ⟨1, none, none, 0, 0, 0⟩

/-! ## Persistence layer: jobs, games, the coordinator, cancel, dispatch

Database rows are modelled as structures over the fields the verified code
reads or writes; timestamps are naturals (`utcnow()` values), and a user's
rows are lists already scoped to that user, mirroring the `user_id` filters
of every query involved. -/
/-- `Game.analysis_state` values. -/
inductive AState where
  | unanalyzed
  | in_progress
  | analyzed
deriving DecidableEq, Repr

/-- Job lifecycle states (`ImportJob.status` / `AnalysisJob.status`). -/
inductive JobStatus where
  | pending
  | processing
  | completed
  | failed
  | cancelled
deriving DecidableEq, Repr

/-- `Game` row (models.py), restricted to the fields the analysis worker,
coordinator and cancel endpoint touch. -/
structure GameRow where
  analysis_state : AState
  analyzed_at : Option ℕ
  is_analyzed : Bool
  num_moves : Option ℕ
  average_centipawn_loss : Option ℚ
  accuracy : Option ℚ
  num_blunders : Option ℕ
  num_mistakes : Option ℕ
  num_inaccuracies : Option ℕ
deriving DecidableEq, Repr

/-- `AnalysisJob` row (models.py). -/
structure AnalysisJobRow where
  status : JobStatus
  progress : ℕ
  total_games : ℕ
  analyzed_games : ℕ
  started_at : Option ℕ
  completed_at : Option ℕ
  error_message : Option String
deriving DecidableEq, Repr

/-- The coordinator's count query (tasks.py, lines 125-129): the user's games
with `analysis_state = analyzed` and `analyzed_at ≥ since`; the SQL
comparison is false when `analyzed_at` is NULL. -/
def analyzedCountSince (games : List GameRow) (since : ℕ) : ℕ :=
  (games.filter (fun gm => decide (gm.analysis_state = AState.analyzed) &&
    (match gm.analyzed_at with
     | some t => decide (since ≤ t)
     | none => false))).length

/-- Coordinator update of one analysis job after an `analyze_game` success
(tasks.py, lines 122-144).  The enclosing query restricts to jobs in
`processing` with `started_at` set; the body further requires
`total_games > 0`.  `analyzed_games` is capped at `total_games`, `progress`
is the truncated percentage, and the job completes exactly when all games
are counted. -/
def coordinatorUpdateJob (games : List GameRow) (now : ℕ)
    (j : AnalysisJobRow) : AnalysisJobRow :=
  match j.started_at with
  | none => j
  | some st =>
    if j.status = JobStatus.processing then
      if 0 < j.total_games then
        let ag := min (analyzedCountSince games st) j.total_games
        if j.total_games ≤ ag then
          { j with
            analyzed_games := ag
            progress := 100
            status := JobStatus.completed
            completed_at := some now }
        else
          { j with
            analyzed_games := ag
            progress := ag * 100 / j.total_games }
      else j
    else j

/-- Lookup of the user's analysis job by id (`query.filter(id, user_id)`). -/
def lookupJob (jobs : List (ℕ × AnalysisJobRow)) (jobId : ℕ) :
    Option AnalysisJobRow :=
  (jobs.find? (fun p => p.1 == jobId)).map Prod.snd

/-- The cancelled version of a job row. -/
def cancelJobRow (now : ℕ) (j : AnalysisJobRow) : AnalysisJobRow :=
  { j with
    status := JobStatus.cancelled
    completed_at := some now
    error_message := some "Cancelled by user" }

/-- Game reset applied by cancel: `in_progress` games go back to
`unanalyzed`, all others are untouched. -/
def resetStuckGame (gm : GameRow) : GameRow :=
  if gm.analysis_state = AState.in_progress then
    { gm with analysis_state := AState.unanalyzed }
  else gm

/-- `_do_cancel_job` (routers/games.py, lines 584-623): 404 when the job does
not exist for this user, 400 when it is already terminal; otherwise the job
is cancelled and every stuck game reset, all in one commit. -/
def do_cancel_job (jobs : List (ℕ × AnalysisJobRow)) (games : List GameRow)
    (jobId now : ℕ) :
    Except ℕ (List (ℕ × AnalysisJobRow) × List GameRow) :=
  match lookupJob jobs jobId with
  | none => .error 404
  | some j =>
    if j.status = JobStatus.pending ∨ j.status = JobStatus.processing then
      .ok (jobs.map (fun p =>
             if p.1 = jobId then (p.1, cancelJobRow now p.2) else p),
           games.map resetStuckGame)
    else .error 400

/-- HTTP semantics of the cancel endpoint: on an `HTTPException` nothing was
committed, so the state is unchanged; otherwise the new state is returned
with status 200. -/
def cancelEndpoint (jobs : List (ℕ × AnalysisJobRow)) (games : List GameRow)
    (jobId now : ℕ) : ℕ × (List (ℕ × AnalysisJobRow) × List GameRow) :=
  match do_cancel_job jobs games jobId now with
  | .error code => (code, (jobs, games))
  | .ok st => (200, st)

/-- Outcome of step 4 of `analyze_game_task` (worker/tasks.py, line 53): the
analyzer returned a result dict with an `error` key (parse failure, engine
failure, or the analyzer's internal exception handler), the task body raised
an unexpected exception during the analysis, or the analysis succeeded. -/
inductive TaskOutcome where
  | errorResult (msg : String)
  | crash
  | success (moves : List MoveRecord) (stats : GameStats)

/-- `analyze_game_task` (worker/tasks.py, lines 18-180) acting on one game
row and the user-visible `moves` table (rows tagged with their game id).
A missing game returns unchanged; an `analyzed` game is skipped; otherwise
the game is committed to `in_progress` and then: an error result marks the
game `analyzed` with `num_moves = 0` and `analyzed_at = now` without adding
Move rows; an unexpected exception rolls back the uncommitted inserts and
applies the same terminal marking (the game is `in_progress`, not
`analyzed`, when the handler re-reads it); success writes the stats fields
and appends one Move row per analyzed move. -/
def analyze_game_task (game : Option GameRow)
    (movesTable : List (ℕ × MoveRecord)) (gid : ℕ) (outcome : TaskOutcome)
    (now : ℕ) : Option GameRow × List (ℕ × MoveRecord) :=
  match game with
  | none => (none, movesTable)
  | some gm =>
    if gm.analysis_state = AState.analyzed then (some gm, movesTable)
    else
      let g1 := { gm with analysis_state := AState.in_progress }
      match outcome with
      | .errorResult _ =>
        (some { g1 with
            is_analyzed := true
            analysis_state := AState.analyzed
            num_moves := some 0
            analyzed_at := some now }, movesTable)
      | .crash =>
        (some { g1 with
            is_analyzed := true
            analysis_state := AState.analyzed
            num_moves := some 0
            analyzed_at := some now }, movesTable)
      | .success moves stats =>
        (some { g1 with
            is_analyzed := true
            analysis_state := AState.analyzed
            num_moves := some stats.num_moves
            average_centipawn_loss := stats.average_centipawn_loss
            accuracy := stats.accuracy
            num_blunders := some stats.num_blunders
            num_mistakes := some stats.num_mistakes
            num_inaccuracies := some stats.num_inaccuracies
            analyzed_at := some now },
          movesTable ++ moves.map (fun m => (gid, m)))

/-- Detail text of the import dispatcher's 409 response
(routers/games.py, line 158). -/
def statusText : JobStatus → String
  | .pending => "pending"
  | .processing => "processing"
  | .completed => "completed"
  | .failed => "failed"
  | .cancelled => "cancelled"

/-- Conflict detail of `import_games` (routers/games.py, line 158). -/
def importConflictDetail (i : ℕ) (st : JobStatus) : String :=
  "You already have an import job in progress. Job #" ++ toString i ++
    (" is currently " ++ statusText st ++ ".")

/-- Conflict detail of `analyze_all_games` (routers/games.py, line 497). -/
def analysisConflictDetail (i : ℕ) (st : JobStatus) : String :=
  "You already have an analysis job in progress. Job #" ++ toString i ++
    (" is currently " ++ statusText st ++ ".")

/-- The dispatchers' idempotency query: first job of the user in
`{pending, processing}`. -/
def findActiveJob (jobs : List (ℕ × JobStatus)) : Option (ℕ × JobStatus) :=
  jobs.find? (fun p => decide (p.2 = JobStatus.pending) ||
    decide (p.2 = JobStatus.processing))

/-- `import_games` dispatcher (routers/games.py, lines 125-210): the conflict
check precedes handle validation, job-row insert and task enqueue.  Returns
the HTTP response (error status + detail, or the new job id), the user's
import-job rows afterwards, and the number of tasks enqueued. -/
def import_games_dispatch (jobs : List (ℕ × JobStatus))
    (handle : Option String) (newId : ℕ) :
    (Except (ℕ × String) ℕ) × List (ℕ × JobStatus) × ℕ :=
  match findActiveJob jobs with
  | some p => (.error (409, importConflictDetail p.1 p.2), jobs, 0)
  | none =>
    match handle with
    | none => (.error (400, "No Chess.com username provided."), jobs, 0)
    | some _ => (.ok newId, jobs ++ [(newId, JobStatus.pending)], 1)

/-- `analyze_all_games` dispatcher (routers/games.py, lines 477-522): same
idempotency check, but the refusal status code is 429. -/
def analyze_all_dispatch (jobs : List (ℕ × JobStatus)) (newId : ℕ) :
    (Except (ℕ × String) ℕ) × List (ℕ × JobStatus) × ℕ :=
  match findActiveJob jobs with
  | some p => (.error (429, analysisConflictDetail p.1 p.2), jobs, 0)
  | none => (.ok newId, jobs ++ [(newId, JobStatus.pending)], 1)

/-- A provider game fetched and normalized by the chess.com adapter;
`chess_com_id` is `url.split("/")[-1]`, and `none` models the Python-falsy
ids (`None` when the game JSON has no url, or the empty string). -/
structure FetchedGame where
  chess_com_id : Option String
  payload : ℕ
deriving DecidableEq, Repr

/-- Deduplicating insert loop of `import_games_task` (tasks.py, lines
322-347).  `seen` is the in-memory `existing_ids` set: a game whose truthy
id is already in the set is skipped; every other game — including every game
with a falsy id — is inserted and its id added to the set.  Returns the
inserted games and the final set. -/
def importLoop : List FetchedGame → List (Option String) →
    List FetchedGame × List (Option String)
  | [], seen => ([], seen)
  | gm :: rest, seen =>
    match gm.chess_com_id with
    | some idStr =>
      if some idStr ∈ seen then importLoop rest seen
      else
        let res := importLoop rest (some idStr :: seen)
        (gm :: res.1, res.2)
    | none =>
      let res := importLoop rest (none :: seen)
      (gm :: res.1, res.2)

/-- One `import_games_task` run (tasks.py, lines 314-354): the initial
`existing_ids` set collects the truthy stored ids, then the insert loop
runs; `new_games_count` is the number of inserted rows. -/
def import_games_run (storedIds : List (Option String))
    (fetched : List FetchedGame) : List FetchedGame × ℕ :=
  let res := importLoop fetched (storedIds.filter (fun o => o.isSome))
  (res.1, res.1.length)

theorem pawnsOf_some (x : ℚ) : pawnsOf (some x) = x / 100 := by
  by_cases h : x = 0 <;> simp [pawnsOf, h]

theorem pawnsOf_none : pawnsOf none = 0 := rfl

/-- C3: `classify_move` returns the first matching rule of the spec's ordered
table, and in particular classifies the spec's five sample inputs as
`best`, `good`, `inaccuracy`, `mistake` and `blunder`. -/
theorem C3_classification_table :
    (∀ c eb ea, classify_move c eb ea = classifySpecTable c eb ea) ∧
    (∀ eb ea, classify_move (some 5) eb ea = .best) ∧
    (∀ eb ea, classify_move (some 40) eb ea = .good) ∧
    classify_move (some 80) (some (1/5)) (some 1) = .inaccuracy ∧
    classify_move (some 200) (some (13/5)) (some (4/5)) = .mistake ∧
    classify_move (some 350) (some 0) (some (-(7/2))) = .blunder := by
  refine ⟨?_, ?_, ?_, ?_, ?_, ?_⟩
  · intro c eb ea
    rcases c with _ | cpl
    · rfl
    rcases eb with _ | b0 <;> rcases ea with _ | a0 <;>
        rw [classify_move.eq_def, classifySpecTable.eq_def] <;>
        simp [pawnsOf_some, pawnsOf_none]
  · intro eb ea
    rw [classify_move.eq_def]
    norm_num
  · intro eb ea
    rw [classify_move.eq_def]
    norm_num
  · rw [classify_move.eq_def]
    simp only [pawnsOf_some, Option.isSome_some, true_and]
    norm_num
  · rw [classify_move.eq_def]
    simp only [pawnsOf_some, Option.isSome_some, true_and]
    norm_num
  · rw [classify_move.eq_def]
    simp only [pawnsOf_some, Option.isSome_some, true_and]
    norm_num

theorem flagAt_zero (w : Bool) : flagAt w 0 = w := rfl

theorem flagAt_succ (w : Bool) (j : ℕ) : flagAt w (j + 1) = flagAt (!w) j := by
  rcases Nat.mod_two_eq_zero_or_one j with h | h <;>
    simp [flagAt, h, Nat.add_mod, Nat.mod_two_eq_zero_or_one] <;> cases w <;> simp

theorem blacksBefore_zero (w : Bool) : blacksBefore w 0 = 0 := by
  cases w <;> simp [blacksBefore]

theorem blacksBefore_succ (w : Bool) (j : ℕ) :
    blacksBefore w (j + 1) = (if w then 0 else 1) + blacksBefore (!w) j := by
  cases w <;> simp [blacksBefore] <;> omega

theorem analyzeStep_ok_shape (u : Bool) (m : MoveIn) (w : Bool)
    (eng : EngineIter) (co : Option String) (s s' : LoopState)
    (h : analyzeStep u m w eng co s = .ok s') :
    ∃ r : MoveRecord,
      s'.moves_analysis = s.moves_analysis ++ [r] ∧
      r.half_move = s.half_move ∧
      r.is_white = w ∧
      r.move_number = s.move_number ∧
      s'.half_move = s.half_move + 1 ∧
      s'.move_number = (if w then s.move_number else s.move_number + 1) ∧
      s'.engine_calls = s.engine_calls + 3 ∧
      (∀ c, r.centipawn_loss = some c →
        ∃ b a, eng.evalBefore = some b ∧ eng.evalAfter = some a ∧
          (w = true → c = b - a ∧
            r.evaluation_before = some b ∧ r.evaluation_after = some (-a)) ∧
          (w = false → c = a - b ∧
            r.evaluation_before = some (-b) ∧ r.evaluation_after = some a)) := by
  rcases eng with ⟨eb, best, ea⟩
  rcases eb with _ | eb0 <;> rcases ea with _ | ea0 <;> cases w <;>
      simp only [analyzeStep, emitRecord, Except.ok.injEq, Bool.false_eq_true, if_false,
        if_true] at h
  all_goals try exact Except.noConfusion h
  all_goals subst h
  all_goals refine ⟨_, rfl, rfl, rfl, rfl, rfl, rfl, rfl, ?_⟩
  all_goals intro c hc
  all_goals try exact Option.noConfusion hc
  all_goals simp only [Option.some.injEq] at hc
  all_goals refine ⟨eb0, ea0, rfl, rfl, ?_, ?_⟩ <;> intro hw
  all_goals try exact Bool.noConfusion hw
  all_goals exact ⟨by subst hc; ring, rfl, by simp⟩

theorem analyzeStep_error_calls (u : Bool) (m : MoveIn) (w : Bool)
    (eng : EngineIter) (co : Option String) (s : LoopState) (msg : String)
    (se : LoopState) (h : analyzeStep u m w eng co s = .error (msg, se)) :
    se.engine_calls = s.engine_calls + 3 := by
  rcases eng with ⟨eb, best, ea⟩
  rcases eb with _ | eb0 <;> rcases ea with _ | ea0 <;> cases w <;>
      simp only [analyzeStep, emitRecord, Except.error.injEq, Prod.mk.injEq,
        Bool.false_eq_true, if_false, if_true] at h
  all_goals try exact Except.noConfusion h
  all_goals rw [← h.2]

theorem classify_none (eb ea : Option ℚ) : classify_move none eb ea = .book := rfl

theorem emitRecord_blunders (u : Bool) (m : MoveIn) (w : Bool) (best co : Option String)
    (cp sb sa2 : Option ℚ) (cls : MoveClass) (s : LoopState) :
    (emitRecord u m w best co cp sb sa2 cls s).blunders =
      if (shouldAnalyze w u && cls = MoveClass.blunder) = true then s.blunders + 1
      else s.blunders := rfl

theorem emitRecord_mistakes (u : Bool) (m : MoveIn) (w : Bool) (best co : Option String)
    (cp sb sa2 : Option ℚ) (cls : MoveClass) (s : LoopState) :
    (emitRecord u m w best co cp sb sa2 cls s).mistakes =
      if (shouldAnalyze w u && cls = MoveClass.mistake) = true then s.mistakes + 1
      else s.mistakes := rfl

theorem emitRecord_inaccuracies (u : Bool) (m : MoveIn) (w : Bool)
    (best co : Option String) (cp sb sa2 : Option ℚ) (cls : MoveClass) (s : LoopState) :
    (emitRecord u m w best co cp sb sa2 cls s).inaccuracies =
      if (shouldAnalyze w u && cls = MoveClass.inaccuracy) = true then s.inaccuracies + 1
      else s.inaccuracies := rfl

theorem emitRecord_num (u : Bool) (m : MoveIn) (w : Bool) (best co : Option String)
    (cp sb sa2 : Option ℚ) (cls : MoveClass) (s : LoopState) :
    (emitRecord u m w best co cp sb sa2 cls s).num_analyzed_moves =
      s.num_analyzed_moves := rfl

theorem analyzeStep_counter_sum (u : Bool) (m : MoveIn) (w : Bool)
    (eng : EngineIter) (co : Option String) (s s' : LoopState)
    (h : analyzeStep u m w eng co s = .ok s') :
    s'.blunders + s'.mistakes + s'.inaccuracies + s.num_analyzed_moves ≤
      s.blunders + s.mistakes + s.inaccuracies + s'.num_analyzed_moves := by
  rcases eng with ⟨eb, best, ea⟩
  rcases eb with _ | eb0 <;> rcases ea with _ | ea0 <;> cases w <;>
      simp only [analyzeStep, Except.ok.injEq, Bool.false_eq_true, if_false, if_true] at h
  · subst h
    simp [emitRecord_blunders, emitRecord_mistakes, emitRecord_inaccuracies,
      emitRecord_num, classify_none]
  · subst h
    simp [emitRecord_blunders, emitRecord_mistakes, emitRecord_inaccuracies,
      emitRecord_num, classify_none]
  · subst h
    simp [emitRecord_blunders, emitRecord_mistakes, emitRecord_inaccuracies,
      emitRecord_num, classify_none]
  · subst h
    simp [emitRecord_blunders, emitRecord_mistakes, emitRecord_inaccuracies,
      emitRecord_num, classify_none]
  · exact Except.noConfusion h
  · subst h
    simp [emitRecord_blunders, emitRecord_mistakes, emitRecord_inaccuracies,
      emitRecord_num, classify_none]
  · subst h
    cases hcls : classify_move (some (-eb0 - -ea0)) (some (-eb0)) (some (-ea0)) <;>
      cases hsa : shouldAnalyze false u <;>
      simp [emitRecord_blunders, emitRecord_mistakes, emitRecord_inaccuracies,
        emitRecord_num, hcls, hsa] <;>
      omega
  · subst h
    cases hcls : classify_move (some (eb0 - ea0)) (some eb0) (some ea0) <;>
      cases hsa : shouldAnalyze true u <;>
      simp [emitRecord_blunders, emitRecord_mistakes, emitRecord_inaccuracies,
        emitRecord_num, hcls, hsa] <;>
      omega

theorem runMoves_counter_sum (u : Bool) (eng : ℕ → EngineIter)
    (coach : ℕ → Option String) :
    ∀ (ms : List MoveIn) (w : Bool) (i : ℕ) (s s' : LoopState),
      runMoves u eng coach ms w i s = .ok s' →
      s'.blunders + s'.mistakes + s'.inaccuracies + s.num_analyzed_moves ≤
        s.blunders + s.mistakes + s.inaccuracies + s'.num_analyzed_moves := by
  intro ms
  induction ms with
  | nil =>
    intro w i s s' h
    simp only [runMoves] at h
    cases h
    omega
  | cons m ms ih =>
    intro w i s s' h
    simp only [runMoves] at h
    cases hstep : analyzeStep u m w (eng i) (coach i) s with
    | error e => rw [hstep] at h; exact Except.noConfusion h
    | ok s1 =>
      rw [hstep] at h
      have h1 := analyzeStep_counter_sum u m w (eng i) (coach i) s s1 hstep
      have h2 := ih (!w) (i + 1) s1 s' h
      omega

theorem runMoves_records (u : Bool) (eng : ℕ → EngineIter)
    (coach : ℕ → Option String) :
    ∀ (ms : List MoveIn) (w : Bool) (i : ℕ) (s s' : LoopState),
      runMoves u eng coach ms w i s = .ok s' →
      ∃ rs : List MoveRecord,
        s'.moves_analysis = s.moves_analysis ++ rs ∧
        rs.length = ms.length ∧
        s'.engine_calls = s.engine_calls + 3 * ms.length ∧
        ∀ j (hj : j < rs.length),
          (rs.get ⟨j, hj⟩).half_move = s.half_move + j ∧
          (rs.get ⟨j, hj⟩).is_white = flagAt w j ∧
          (rs.get ⟨j, hj⟩).move_number = s.move_number + blacksBefore w j ∧
          (∀ c, (rs.get ⟨j, hj⟩).centipawn_loss = some c →
            ∃ b a, (eng (i + j)).evalBefore = some b ∧
              (eng (i + j)).evalAfter = some a ∧
              (flagAt w j = true → c = b - a ∧
                (rs.get ⟨j, hj⟩).evaluation_before = some b ∧
                (rs.get ⟨j, hj⟩).evaluation_after = some (-a)) ∧
              (flagAt w j = false → c = a - b ∧
                (rs.get ⟨j, hj⟩).evaluation_before = some (-b) ∧
                (rs.get ⟨j, hj⟩).evaluation_after = some a)) := by
  intro ms
  induction ms with
  | nil =>
    intro w i s s' h
    simp only [runMoves] at h
    cases h
    exact ⟨[], by simp, rfl, by simp, fun j hj => absurd hj (by simp)⟩
  | cons m ms ih =>
    intro w i s s' h
    simp only [runMoves] at h
    cases hstep : analyzeStep u m w (eng i) (coach i) s with
    | error e => rw [hstep] at h; exact Except.noConfusion h
    | ok s1 =>
      rw [hstep] at h
      obtain ⟨r, hmv, hhm, hiw, hmn, hhm1, hmn1, hec, hcp⟩ :=
        analyzeStep_ok_shape u m w (eng i) (coach i) s s1 hstep
      obtain ⟨rs, hmv2, hlen, hec2, hrec⟩ := ih (!w) (i + 1) s1 s' h
      refine ⟨r :: rs, ?_, by simp [hlen], ?_, ?_⟩
      · rw [hmv2, hmv]
        simp
      · rw [hec2, hec]
        simp only [List.length_cons]
        ring
      · intro j hj
        cases j with
        | zero =>
          refine ⟨?_, ?_, ?_, ?_⟩
          · show r.half_move = s.half_move + 0
            rw [Nat.add_zero]
            exact hhm
          · show r.is_white = flagAt w 0
            rw [hiw, flagAt_zero]
          · show r.move_number = s.move_number + blacksBefore w 0
            rw [blacksBefore_zero, Nat.add_zero]
            exact hmn
          · exact hcp
        | succ j =>
          have hj2 : j < rs.length := by
            simp only [List.length_cons] at hj
            omega
          obtain ⟨k1, k2, k3, k4⟩ := hrec j hj2
          refine ⟨?_, ?_, ?_, ?_⟩
          · show (rs.get ⟨j, hj2⟩).half_move = s.half_move + (j + 1)
            rw [k1, hhm1]
            omega
          · show (rs.get ⟨j, hj2⟩).is_white = flagAt w (j + 1)
            rw [k2, flagAt_succ]
          · show (rs.get ⟨j, hj2⟩).move_number = s.move_number + blacksBefore w (j + 1)
            rw [k3, hmn1, blacksBefore_succ]
            cases w <;> simp <;> omega
          · have hidx : i + (j + 1) = (i + 1) + j := by omega
            simp only [hidx, flagAt_succ]
            exact k4

theorem runMoves_error_calls (u : Bool) (eng : ℕ → EngineIter)
    (coach : ℕ → Option String) :
    ∀ (ms : List MoveIn) (w : Bool) (i : ℕ) (s : LoopState) (msg : String)
      (se : LoopState),
      runMoves u eng coach ms w i s = .error (msg, se) →
      se.engine_calls ≤ s.engine_calls + 3 * ms.length := by
  intro ms
  induction ms with
  | nil =>
    intro w i s msg se h
    simp only [runMoves] at h
    exact Except.noConfusion h
  | cons m ms ih =>
    intro w i s msg se h
    simp only [runMoves] at h
    cases hstep : analyzeStep u m w (eng i) (coach i) s with
    | error e =>
      rw [hstep] at h
      injection h with h2
      subst h2
      have := analyzeStep_error_calls u m w (eng i) (coach i) s msg se hstep
      simp only [List.length_cons]
      omega
    | ok s1 =>
      rw [hstep] at h
      obtain ⟨r, hmv, hhm, hiw, hmn, hhm1, hmn1, hec, hcp⟩ :=
        analyzeStep_ok_shape u m w (eng i) (coach i) s s1 hstep
      have := ih (!w) (i + 1) s1 msg se h
      simp only [List.length_cons]
      omega

theorem analyze_game_ok_inv (g : ParsedGame) (u spawn : Bool)
    (eng : ℕ → EngineIter) (coach : ℕ → Option String)
    (recs : List MoveRecord) (stats : GameStats) (n : ℕ)
    (h : analyze_game (some g) u spawn eng coach = (.ok recs stats, n)) :
    spawn = true ∧ ∃ s : LoopState,
      runMoves u eng coach g.moves g.startWhite 0 initState = .ok s ∧
      recs = s.moves_analysis ∧ stats = mkStats s ∧ n = s.engine_calls := by
  cases hspawn : spawn
  · rw [hspawn] at h
    simp [analyze_game] at h
  · rw [hspawn] at h
    cases hrun : runMoves u eng coach g.moves g.startWhite 0 initState with
    | error e =>
      rcases e with ⟨msg, se⟩
      rw [analyze_game.eq_def] at h
      simp only [hrun, if_true, Prod.mk.injEq] at h
      exact absurd h.1 (by simp)
    | ok s =>
      rw [analyze_game.eq_def] at h
      simp only [hrun, if_true, Prod.mk.injEq, AnalysisResult.ok.injEq] at h
      exact ⟨rfl, s, rfl, h.1.1.symm, h.1.2.symm, h.2.symm⟩

/-- C1 (amended): the move analyzer issues exactly three engine `analyse`
calls per move — evaluation-before, best-move, evaluation-after — so a
completed (happy-path) analysis of a game of N moves issues exactly `3·N`
calls, and every run, error paths included, issues at most `3·N` calls. -/
theorem C1_engine_calls_amended (pg : Option ParsedGame) (u spawn : Bool)
    (eng : ℕ → EngineIter) (coach : ℕ → Option String) :
    (analyze_game pg u spawn eng coach).2 ≤ 3 * pgMoves pg ∧
    (∀ g recs stats n, pg = some g →
      analyze_game pg u spawn eng coach = (.ok recs stats, n) →
      n = 3 * g.moves.length) := by
  constructor
  · rcases pg with _ | g
    · simp [analyze_game]
    · cases hspawn : spawn
      · simp [analyze_game, hspawn]
      · rw [analyze_game.eq_def]
        cases hrun : runMoves u eng coach g.moves g.startWhite 0 initState with
        | error e =>
          rcases e with ⟨msg, se⟩
          have := runMoves_error_calls u eng coach g.moves g.startWhite 0 initState
            msg se hrun
          simp only [hrun, if_true, pgMoves]
          simpa [initState] using this
        | ok s =>
          obtain ⟨rs, _, _, hec, _⟩ :=
            runMoves_records u eng coach g.moves g.startWhite 0 initState s hrun
          simp only [hrun, if_true, pgMoves]
          simp [hec, initState]
  · intro g recs stats n hpg h
    subst hpg
    obtain ⟨_, s, hrun, _, _, hn⟩ := analyze_game_ok_inv g u spawn eng coach recs stats n h
    obtain ⟨rs, _, _, hec, _⟩ :=
      runMoves_records u eng coach g.moves g.startWhite 0 initState s hrun
    rw [hn, hec]
    simp [initState]

/-- C1 counterexample: on the happy-path analysis of a one-move game the
analyzer issues 3 engine calls, not N+1 = 2, and 3 exceeds the claimed bound
`0.7·2·N = 1.4`. -/
theorem C1_counterexample :
    (analyze_game (some ⟨true, [⟨"e4", "e2e4"⟩]⟩) true true engNone coachNone).2 = 3 ∧
    (analyze_game (some ⟨true, [⟨"e4", "e2e4"⟩]⟩) true true engNone coachNone).1 =
      .ok [⟨1, true, 0, "e4", "e2e4", none, none, none, .book, none, none⟩]
        ⟨1, none, none, 0, 0, 0⟩ ∧
    ¬((3 : ℕ) = 1 + 1) ∧ ¬((3 : ℚ) ≤ 7 / 10 * (2 * 1)) := by
  refine ⟨by decide, by decide, by norm_num, by norm_num⟩

theorem classify_eval_20 : classify_move (some (20 : ℚ)) (some 50) (some 30) =
    .excellent := by
  rw [classify_move.eq_def]
  norm_num

theorem classify_eval_neg20 :
    classify_move (some (-20 : ℚ)) (some (-50)) (some (-30)) = .excellent := by
  rw [classify_move.eq_def]
  simp only [pawnsOf_some, Option.isSome_some, true_and]
  norm_num

theorem C2_run_eval :
    analyze_game (some ⟨true, [⟨"e4", "e2e4"⟩]⟩) true true (engBoth 50 30) coachNone =
      (.ok [C2grec] C2gstat, 3) := by
  norm_num [analyze_game, runMoves, analyzeStep, emitRecord, engBoth, coachNone,
    initState, shouldAnalyze, mkStats, classify_eval_20, max_def, min_def,
    C2grec, C2gstat, Prod.ext_iff]
  decide

/-- C2 (amended): for every analyzed move with both evaluations present, the
stored `centipawn_loss` equals the stored `evaluation_before` plus the stored
`evaluation_after` (that is, `cpl = eval_before − (−eval_after_stored)`);
against the raw POV engine evaluations `eᵢ`, `eᵢ₊₁` this means: for a white
move `cpl = eᵢ − eᵢ₊₁` with stored `evaluation_after = −eᵢ₊₁`, and for a
black move `cpl = eᵢ₊₁ − eᵢ` with stored `evaluation_after = +eᵢ₊₁`. -/
theorem C2_centipawn_loss_amended (g : ParsedGame) (u spawn : Bool)
    (eng : ℕ → EngineIter) (coach : ℕ → Option String)
    (recs : List MoveRecord) (stats : GameStats) (n : ℕ)
    (h : analyze_game (some g) u spawn eng coach = (.ok recs stats, n)) :
    ∀ j (hj : j < recs.length) (c : ℚ),
      (recs.get ⟨j, hj⟩).centipawn_loss = some c →
      (∃ sb sa2, (recs.get ⟨j, hj⟩).evaluation_before = some sb ∧
        (recs.get ⟨j, hj⟩).evaluation_after = some sa2 ∧ c = sb + sa2) ∧
      (∃ b a, (eng j).evalBefore = some b ∧ (eng j).evalAfter = some a ∧
        ((recs.get ⟨j, hj⟩).is_white = true → c = b - a ∧
          (recs.get ⟨j, hj⟩).evaluation_after = some (-a)) ∧
        ((recs.get ⟨j, hj⟩).is_white = false → c = a - b ∧
          (recs.get ⟨j, hj⟩).evaluation_after = some a)) := by
  obtain ⟨-, s, hrun, hrecs, -, -⟩ :=
    analyze_game_ok_inv g u spawn eng coach recs stats n h
  obtain ⟨rs, hmv, hlen, -, hrec⟩ :=
    runMoves_records u eng coach g.moves g.startWhite 0 initState s hrun
  have hrs : recs = rs := by
    rw [hrecs, hmv]
    simp [initState]
  subst hrs
  intro j hj c hc
  obtain ⟨k1, k2, k3, k4⟩ := hrec j hj
  simp only [Nat.zero_add] at k4
  obtain ⟨b, a, hb, ha, hw, hbk⟩ := k4 c hc
  cases hf : flagAt g.startWhite j with
  | true =>
    obtain ⟨hc1, hbefore, hafter⟩ := hw hf
    refine ⟨⟨b, -a, hbefore, hafter, by rw [hc1]; ring⟩,
      b, a, hb, ha, ?_, ?_⟩
    · intro hiw
      exact ⟨hc1, hafter⟩
    · intro hiw
      rw [k2, hf] at hiw
      exact Bool.noConfusion hiw
  | false =>
    obtain ⟨hc1, hbefore, hafter⟩ := hbk hf
    refine ⟨⟨-b, a, hbefore, hafter, by rw [hc1]; ring⟩,
      b, a, hb, ha, ?_, ?_⟩
    · intro hiw
      rw [k2, hf] at hiw
      exact Bool.noConfusion hiw
    · intro hiw
      exact ⟨hc1, hafter⟩

theorem C2_centipawn_loss_amended_witness :
    (analyze_game (some ⟨true, [⟨"e4", "e2e4"⟩]⟩) true true (engBoth 50 30)
        coachNone = (.ok [C2grec] C2gstat, 3)) ∧
    (([C2grec].get ⟨0, by decide⟩).centipawn_loss = some 20) ∧
    ((∃ sb sa2, (([C2grec] : List MoveRecord).get ⟨0, by decide⟩).evaluation_before =
        some sb ∧
      (([C2grec] : List MoveRecord).get ⟨0, by decide⟩).evaluation_after = some sa2 ∧
      (20 : ℚ) = sb + sa2) ∧
     (∃ b a, (engBoth 50 30 0).evalBefore = some b ∧
        (engBoth 50 30 0).evalAfter = some a ∧
        ((([C2grec] : List MoveRecord).get ⟨0, by decide⟩).is_white = true →
          (20 : ℚ) = b - a ∧
          (([C2grec] : List MoveRecord).get ⟨0, by decide⟩).evaluation_after =
            some (-a)) ∧
        ((([C2grec] : List MoveRecord).get ⟨0, by decide⟩).is_white = false →
          (20 : ℚ) = a - b ∧
          (([C2grec] : List MoveRecord).get ⟨0, by decide⟩).evaluation_after =
            some a))) :=
  ⟨C2_run_eval, rfl,
    C2_centipawn_loss_amended ⟨true, [⟨"e4", "e2e4"⟩]⟩ true true (engBoth 50 30)
      coachNone [C2grec] C2gstat 3 C2_run_eval 0 (by decide) 20 rfl⟩

/-- C2 counterexample: with raw POV evaluations `e₀ = 50`, `e₁ = 30` the
stored centipawn loss of the white move is `20 = e₀ − e₁`, not
`e₀ + e₁ = 80` as claimed, and on a black move (second record) the stored
`evaluation_after` is `+e₂ = 30`, not `−e₂ = −30` as claimed. -/
theorem C2_counterexample :
    (analyze_game (some ⟨true, [⟨"e4", "e2e4"⟩, ⟨"e5", "e7e5"⟩]⟩) true true
        (engBoth 50 30) coachNone).1 =
      .ok [⟨1, true, 0, "e4", "e2e4", some 50, some (-30), some "e2e4",
              .excellent, some 20, none⟩,
           ⟨1, false, 1, "e5", "e7e5", some (-50), some 30, some "e2e4",
              .excellent, some (-20), none⟩]
        ⟨2, some 20, some 98, 0, 0, 0⟩ ∧
    ¬((20 : ℚ) = 50 + 30) ∧ ¬(some (30 : ℚ) = some (-(30 : ℚ))) := by
  refine ⟨?_, by norm_num, by norm_num⟩
  norm_num [analyze_game, runMoves, analyzeStep, emitRecord, engBoth, coachNone,
    initState, shouldAnalyze, mkStats, classify_eval_20, classify_eval_neg20,
    max_def, min_def]
  decide

theorem flagAt_true_iff (j : ℕ) : flagAt true j = true ↔ j % 2 = 0 := by
  rcases Nat.mod_two_eq_zero_or_one j with h | h <;> simp [flagAt, h]

/-- C8 (amended): for every successfully analyzed game the `half_move` values
form the contiguous sequence `0..n−1` in order and `is_white` alternates
starting from the game's initial side to move; when the initial position has
White to move (every standard game), `is_white` is true exactly on even
`half_move` and `move_number = ⌊half_move/2⌋ + 1`. -/
theorem C8_move_ordering_amended (g : ParsedGame) (u spawn : Bool)
    (eng : ℕ → EngineIter) (coach : ℕ → Option String)
    (recs : List MoveRecord) (stats : GameStats) (n : ℕ)
    (h : analyze_game (some g) u spawn eng coach = (.ok recs stats, n)) :
    (∀ j (hj : j < recs.length),
      (recs.get ⟨j, hj⟩).half_move = j ∧
      (recs.get ⟨j, hj⟩).is_white = flagAt g.startWhite j) ∧
    (g.startWhite = true → ∀ j (hj : j < recs.length),
      ((recs.get ⟨j, hj⟩).is_white = true ↔ j % 2 = 0) ∧
      (recs.get ⟨j, hj⟩).move_number = j / 2 + 1) ∧
    recs.length = g.moves.length := by
  obtain ⟨-, s, hrun, hrecs, -, -⟩ :=
    analyze_game_ok_inv g u spawn eng coach recs stats n h
  obtain ⟨rs, hmv, hlen, -, hrec⟩ :=
    runMoves_records u eng coach g.moves g.startWhite 0 initState s hrun
  have hrs : recs = rs := by
    rw [hrecs, hmv]
    simp [initState]
  subst hrs
  refine ⟨?_, ?_, hlen⟩
  · intro j hj
    obtain ⟨k1, k2, -, -⟩ := hrec j hj
    refine ⟨?_, k2⟩
    rw [k1]
    simp [initState]
  · intro hstart j hj
    obtain ⟨-, k2, k3, -⟩ := hrec j hj
    rw [hstart] at k2 k3
    constructor
    · rw [k2]
      exact flagAt_true_iff j
    · rw [k3]
      simp [initState, blacksBefore]
      omega

theorem oneMoveNoneRun_eval :
    analyze_game (some ⟨true, [⟨"e4", "e2e4"⟩]⟩) true true engNone coachNone =
      (.ok [oneMoveNoneRec] oneMoveNoneStat, 3) := by decide

theorem C8_move_ordering_amended_witness :
    (analyze_game (some ⟨true, [⟨"e4", "e2e4"⟩]⟩) true true engNone coachNone =
      (.ok [oneMoveNoneRec] oneMoveNoneStat, 3)) ∧
    (([oneMoveNoneRec].get ⟨0, by decide⟩).half_move = 0 ∧
      ([oneMoveNoneRec].get ⟨0, by decide⟩).is_white = flagAt true 0) ∧
    ((([oneMoveNoneRec] : List MoveRecord).get ⟨0, by decide⟩).is_white = true ↔
      0 % 2 = 0) ∧
    (([oneMoveNoneRec] : List MoveRecord).get ⟨0, by decide⟩).move_number = 0 / 2 + 1 ∧
    ([oneMoveNoneRec] : List MoveRecord).length = 1 := by
  have happ := C8_move_ordering_amended ⟨true, [⟨"e4", "e2e4"⟩]⟩ true true engNone
    coachNone [oneMoveNoneRec] oneMoveNoneStat 3 oneMoveNoneRun_eval
  exact ⟨oneMoveNoneRun_eval, happ.1 0 (by decide), (happ.2.1 rfl 0 (by decide)).1,
    (happ.2.1 rfl 0 (by decide)).2, happ.2.2⟩

/-- C8 counterexample: a PGN whose initial position has Black to move (a FEN
header) yields a first record with `half_move = 0` but `is_white = false`, so
`is_white` does not equal evenness of `half_move`. -/
theorem C8_counterexample :
    (analyze_game (some ⟨false, [⟨"e5", "e7e5"⟩]⟩) true true engNone coachNone).1 =
      .ok [⟨1, false, 0, "e5", "e7e5", none, none, none, .book, none, none⟩]
        ⟨1, none, none, 0, 0, 0⟩ ∧
    ¬((false = true) ↔ (0 % 2 = 0)) := ⟨by decide, by decide⟩

/-- C10: when a game analysis completes with no user moves contributing to
statistics (`num_analyzed_moves = 0`: empty move list, or every engine
evaluation missing, or no user move with both evaluations), the returned
stats have `average_centipawn_loss = None` and `accuracy = None` — no
division by zero — and zero blunders, mistakes, and inaccuracies. -/
theorem C10_zero_user_moves (u : Bool) (eng : ℕ → EngineIter)
    (coach : ℕ → Option String) (g : ParsedGame) (s : LoopState)
    (hrun : runMoves u eng coach g.moves g.startWhite 0 initState = .ok s)
    (hnum : s.num_analyzed_moves = 0) :
    analyze_game (some g) u true eng coach =
      (.ok s.moves_analysis (mkStats s), s.engine_calls) ∧
    (mkStats s).average_centipawn_loss = none ∧
    (mkStats s).accuracy = none ∧
    (mkStats s).num_blunders = 0 ∧
    (mkStats s).num_mistakes = 0 ∧
    (mkStats s).num_inaccuracies = 0 := by
  have hsum := runMoves_counter_sum u eng coach g.moves g.startWhite 0 initState s hrun
  simp only [initState] at hsum
  have havg : (mkStats s).average_centipawn_loss = none := by
    simp [mkStats, hnum]
  refine ⟨?_, havg, ?_, ?_, ?_, ?_⟩
  · rw [analyze_game.eq_def]
    simp [hrun]
  · show (match (mkStats s).average_centipawn_loss with
      | none => none
      | some l => some (max 0 (min 100 (100 - l / 10)))) = none
    rw [havg]
  · show s.blunders = 0
    omega
  · show s.mistakes = 0
    omega
  · show s.inaccuracies = 0
    omega

theorem C10_zero_user_moves_witness :
    (runMoves false engNone coachNone (ParsedGame.moves ⟨true, []⟩)
        (ParsedGame.startWhite ⟨true, []⟩) 0 initState = .ok initState) ∧
    initState.num_analyzed_moves = 0 ∧
    (analyze_game (some ⟨true, []⟩) false true engNone coachNone =
      (.ok initState.moves_analysis (mkStats initState), initState.engine_calls)) ∧
    (mkStats initState).average_centipawn_loss = none ∧
    (mkStats initState).accuracy = none ∧
    (mkStats initState).num_blunders = 0 ∧
    (mkStats initState).num_mistakes = 0 ∧
    (mkStats initState).num_inaccuracies = 0 := by
  have happ := C10_zero_user_moves false engNone coachNone ⟨true, []⟩ initState
    rfl rfl
  exact ⟨rfl, rfl, happ.1, happ.2.1, happ.2.2.1, happ.2.2.2.1, happ.2.2.2.2.1,
    happ.2.2.2.2.2⟩

/-- C4: after an `analyze_game` success, each of the user's processing
analysis jobs with `started_at` set and `total_games > 0` gets
`analyzed_games = min(count, total_games)` and
`progress = ⌊analyzed_games·100/total_games⌋`; hence
`analyzed_games ≤ total_games`, progress is non-decreasing in the count, and
the job completes — with `progress = 100` and `completed_at = now` — exactly
when the count reaches `total_games`. -/
theorem C4_coordinator_progress (games : List GameRow) (now : ℕ)
    (j : AnalysisJobRow) (st : ℕ) (hst : j.started_at = some st)
    (hproc : j.status = JobStatus.processing) (htot : 0 < j.total_games) :
    ((coordinatorUpdateJob games now j).analyzed_games =
      min (analyzedCountSince games st) j.total_games) ∧
    ((coordinatorUpdateJob games now j).analyzed_games ≤ j.total_games) ∧
    ((coordinatorUpdateJob games now j).progress =
      (coordinatorUpdateJob games now j).analyzed_games * 100 / j.total_games) ∧
    ((coordinatorUpdateJob games now j).status = JobStatus.completed ↔
      j.total_games ≤ analyzedCountSince games st) ∧
    ((coordinatorUpdateJob games now j).status = JobStatus.completed →
      (coordinatorUpdateJob games now j).progress = 100 ∧
      (coordinatorUpdateJob games now j).completed_at = some now) ∧
    (∀ (games2 : List GameRow) (now2 : ℕ),
      analyzedCountSince games st ≤ analyzedCountSince games2 st →
      (coordinatorUpdateJob games now j).progress ≤
        (coordinatorUpdateJob games2 now2 j).progress) := by
  obtain ⟨jst, jpr, jtg, jag, jsa, jca, jem⟩ := j
  replace hst : jsa = some st := hst
  replace hproc : jst = JobStatus.processing := hproc
  replace htot : 0 < jtg := htot
  subst hst
  subst hproc
  have hkey : ∀ (gs : List GameRow) (nw : ℕ),
      coordinatorUpdateJob gs nw
          ⟨JobStatus.processing, jpr, jtg, jag, some st, jca, jem⟩ =
        (if jtg ≤ analyzedCountSince gs st then
          ⟨JobStatus.completed, 100, jtg, min (analyzedCountSince gs st) jtg,
            some st, some nw, jem⟩
        else
          ⟨JobStatus.processing, min (analyzedCountSince gs st) jtg * 100 / jtg,
            jtg, min (analyzedCountSince gs st) jtg, some st, jca, jem⟩) := by
    intro gs nw
    simp only [coordinatorUpdateJob]
    rw [if_true, if_pos htot]
    by_cases hc : jtg ≤ analyzedCountSince gs st
    · rw [if_pos hc, if_pos (show jtg ≤ min (analyzedCountSince gs st) jtg by omega)]
    · rw [if_neg hc, if_neg (show ¬jtg ≤ min (analyzedCountSince gs st) jtg by omega)]
  have hag : ∀ (gs : List GameRow) (nw : ℕ),
      (coordinatorUpdateJob gs nw
        ⟨JobStatus.processing, jpr, jtg, jag, some st, jca, jem⟩).analyzed_games =
        min (analyzedCountSince gs st) jtg := by
    intro gs nw
    rw [hkey]
    by_cases hc : jtg ≤ analyzedCountSince gs st <;> simp [hc]
  have hpr : ∀ (gs : List GameRow) (nw : ℕ),
      (coordinatorUpdateJob gs nw
        ⟨JobStatus.processing, jpr, jtg, jag, some st, jca, jem⟩).progress =
        min (analyzedCountSince gs st) jtg * 100 / jtg := by
    intro gs nw
    rw [hkey]
    by_cases hc : jtg ≤ analyzedCountSince gs st <;> simp only [hc, if_true, if_false]
    rw [Nat.min_eq_right hc, Nat.mul_div_cancel_left 100 htot]
  have hcompl : ∀ (gs : List GameRow) (nw : ℕ),
      ((coordinatorUpdateJob gs nw
        ⟨JobStatus.processing, jpr, jtg, jag, some st, jca, jem⟩).status =
          JobStatus.completed ↔ jtg ≤ analyzedCountSince gs st) := by
    intro gs nw
    rw [hkey]
    by_cases hc : jtg ≤ analyzedCountSince gs st <;> simp [hc]
  refine ⟨hag games now, ?_, ?_, hcompl games now, ?_, ?_⟩
  · rw [hag games now]
    exact Nat.min_le_right _ _
  · rw [hpr games now, hag games now]
  · intro hdone
    have hc := (hcompl games now).mp hdone
    constructor
    · rw [hpr games now, Nat.min_eq_right hc, Nat.mul_div_cancel_left 100 htot]
    · rw [hkey games now, if_pos hc]
  · intro games2 now2 hle
    rw [hpr games now, hpr games2 now2]
    exact Nat.div_le_div_right (Nat.mul_le_mul_right 100 (by omega))

theorem C4_coordinator_progress_witness :
    ((⟨JobStatus.processing, 0, 2, 0, some 3, none, none⟩ :
        AnalysisJobRow).started_at = some 3 ∧
      (⟨JobStatus.processing, 0, 2, 0, some 3, none, none⟩ :
        AnalysisJobRow).status = JobStatus.processing ∧
      0 < (⟨JobStatus.processing, 0, 2, 0, some 3, none, none⟩ :
        AnalysisJobRow).total_games) ∧
    ((coordinatorUpdateJob [⟨AState.analyzed, some 5, true, some 0, none, none,
        none, none, none⟩] 9 ⟨JobStatus.processing, 0, 2, 0, some 3, none,
        none⟩).analyzed_games = 1 ∧
      (coordinatorUpdateJob [⟨AState.analyzed, some 5, true, some 0, none, none,
        none, none, none⟩] 9 ⟨JobStatus.processing, 0, 2, 0, some 3, none,
        none⟩).progress = 50) := by
  have happ := C4_coordinator_progress
    [⟨AState.analyzed, some 5, true, some 0, none, none, none, none, none⟩] 9
    ⟨JobStatus.processing, 0, 2, 0, some 3, none, none⟩ 3 rfl rfl (by decide)
  refine ⟨⟨rfl, rfl, by decide⟩, ?_, ?_⟩
  · rw [happ.1]
    decide
  · rw [happ.2.2.1, happ.1]
    decide

theorem lookupJob_map_cancel (jobs : List (ℕ × AnalysisJobRow))
    (jobId now : ℕ) :
    lookupJob (jobs.map (fun p =>
        if p.1 = jobId then (p.1, cancelJobRow now p.2) else p)) jobId =
      (lookupJob jobs jobId).map (cancelJobRow now) := by
  induction jobs with
  | nil => rfl
  | cons p rest ih =>
    rcases p with ⟨i, j⟩
    by_cases hi : i = jobId
    · subst hi
      simp [lookupJob, List.find?]
    · simp only [List.map_cons]
      rw [if_neg hi]
      simp only [lookupJob, List.find?] at ih ⊢
      have hbeq : (i == jobId) = false := by
        simp [hi]
      rw [hbeq]
      simpa using ih

theorem lookupJob_map_cancel_other (jobs : List (ℕ × AnalysisJobRow))
    (jobId now i : ℕ) (hne : i ≠ jobId) :
    lookupJob (jobs.map (fun p =>
        if p.1 = jobId then (p.1, cancelJobRow now p.2) else p)) i =
      lookupJob jobs i := by
  induction jobs with
  | nil => rfl
  | cons p rest ih =>
    rcases p with ⟨k, j⟩
    by_cases hk : k = jobId
    · subst hk
      have hbeq : (k == i) = false := by
        simp
        omega
      simp [lookupJob, List.find?, hbeq] at ih ⊢
      simpa [lookupJob, List.find?] using ih
    · simp only [List.map_cons]
      rw [if_neg hk]
      by_cases hki : k = i
      · subst hki
        simp [lookupJob, List.find?]
      · have hbeq : (k == i) = false := by
          simp [hki]
        simp only [lookupJob, List.find?, hbeq] at ih ⊢
        simpa using ih

/-- C5: cancelling a pending/processing job marks it cancelled with
`completed_at = now` and `error_message = "Cancelled by user"`, leaves every
other job row intact, resets exactly the user's `in_progress` games to
`unanalyzed` in the same transaction (afterwards no game is `in_progress`),
and returns 404 for a missing job and 400 for a terminal one without
touching any state. -/
theorem C5_cancel_job (jobs : List (ℕ × AnalysisJobRow)) (games : List GameRow)
    (jobId now : ℕ) :
    (lookupJob jobs jobId = none →
      cancelEndpoint jobs games jobId now = (404, (jobs, games))) ∧
    (∀ j, lookupJob jobs jobId = some j →
      ¬(j.status = JobStatus.pending ∨ j.status = JobStatus.processing) →
      cancelEndpoint jobs games jobId now = (400, (jobs, games))) ∧
    (∀ j, lookupJob jobs jobId = some j →
      (j.status = JobStatus.pending ∨ j.status = JobStatus.processing) →
      (cancelEndpoint jobs games jobId now).1 = 200 ∧
      lookupJob (cancelEndpoint jobs games jobId now).2.1 jobId =
        some { j with
          status := JobStatus.cancelled
          completed_at := some now
          error_message := some "Cancelled by user" } ∧
      (∀ i, i ≠ jobId →
        lookupJob (cancelEndpoint jobs games jobId now).2.1 i =
          lookupJob jobs i) ∧
      (cancelEndpoint jobs games jobId now).2.2 = games.map resetStuckGame ∧
      (∀ gm, gm ∈ games → gm.analysis_state ≠ AState.in_progress →
        resetStuckGame gm = gm) ∧
      (∀ gm, gm ∈ (cancelEndpoint jobs games jobId now).2.2 →
        gm.analysis_state ≠ AState.in_progress)) := by
  refine ⟨?_, ?_, ?_⟩
  · intro hnone
    simp [cancelEndpoint, do_cancel_job, hnone]
  · intro j hj hterm
    simp [cancelEndpoint, do_cancel_job, hj, hterm]
  · intro j hj hlive
    have hok : do_cancel_job jobs games jobId now =
        .ok (jobs.map (fun p =>
            if p.1 = jobId then (p.1, cancelJobRow now p.2) else p),
          games.map resetStuckGame) := by
      simp [do_cancel_job, hj, hlive]
    refine ⟨?_, ?_, ?_, ?_, ?_, ?_⟩
    · simp [cancelEndpoint, hok]
    · simp only [cancelEndpoint, hok]
      rw [lookupJob_map_cancel, hj]
      rfl
    · intro i hne
      simp only [cancelEndpoint, hok]
      exact lookupJob_map_cancel_other jobs jobId now i hne
    · simp [cancelEndpoint, hok]
    · intro gm hgm hstate
      simp [resetStuckGame, hstate]
    · intro gm hgm
      simp only [cancelEndpoint, hok] at hgm
      simp only [List.mem_map] at hgm
      obtain ⟨gm0, -, hgm0⟩ := hgm
      rw [← hgm0]
      unfold resetStuckGame
      split_ifs with hs
      · simp
      · exact hs

theorem C5_cancel_job_witness :
    (lookupJob [(4, ⟨JobStatus.processing, 10, 3, 1, some 2, none, none⟩)] 4 =
      some ⟨JobStatus.processing, 10, 3, 1, some 2, none, none⟩) ∧
    ((⟨JobStatus.processing, 10, 3, 1, some 2, none, none⟩ :
        AnalysisJobRow).status = JobStatus.pending ∨
      (⟨JobStatus.processing, 10, 3, 1, some 2, none, none⟩ :
        AnalysisJobRow).status = JobStatus.processing) ∧
    (cancelEndpoint [(4, ⟨JobStatus.processing, 10, 3, 1, some 2, none, none⟩)]
        [⟨AState.in_progress, none, false, none, none, none, none, none, none⟩]
        4 7).1 = 200 ∧
    (∀ gm, gm ∈ (cancelEndpoint
        [(4, ⟨JobStatus.processing, 10, 3, 1, some 2, none, none⟩)]
        [⟨AState.in_progress, none, false, none, none, none, none, none, none⟩]
        4 7).2.2 →
      gm.analysis_state ≠ AState.in_progress) := by
  have happ := C5_cancel_job
    [(4, ⟨JobStatus.processing, 10, 3, 1, some 2, none, none⟩)]
    [⟨AState.in_progress, none, false, none, none, none, none, none, none⟩] 4 7
  have hlook : lookupJob
      [(4, ⟨JobStatus.processing, 10, 3, 1, some 2, none, none⟩)] 4 =
      some ⟨JobStatus.processing, 10, 3, 1, some 2, none, none⟩ := by decide
  have hlive : (⟨JobStatus.processing, 10, 3, 1, some 2, none, none⟩ :
      AnalysisJobRow).status = JobStatus.pending ∨
      (⟨JobStatus.processing, 10, 3, 1, some 2, none, none⟩ :
        AnalysisJobRow).status = JobStatus.processing := Or.inr rfl
  obtain ⟨h200, -, -, -, -, hnone⟩ := happ.2.2 _ hlook hlive
  exact ⟨hlook, hlive, h200, hnone⟩

/-- C6: whenever `analyze_game_task` runs on an existing, not-yet-analyzed
game and the analysis fails — an analyzer error result or an unexpected
exception in the task body — the game ends in the terminal state
`analysis_state = analyzed` with `num_moves = 0` and `analyzed_at = now`, it
is never left `in_progress`, and no Move rows are inserted. -/
theorem C6_failure_marks_analyzed (gm : GameRow)
    (movesTable : List (ℕ × MoveRecord)) (gid : ℕ) (outcome : TaskOutcome)
    (now : ℕ) (hstate : gm.analysis_state ≠ AState.analyzed)
    (hfail : (∃ msg, outcome = TaskOutcome.errorResult msg) ∨
      outcome = TaskOutcome.crash) :
    ∃ gm2 : GameRow,
      (analyze_game_task (some gm) movesTable gid outcome now).1 = some gm2 ∧
      gm2.analysis_state = AState.analyzed ∧
      gm2.analysis_state ≠ AState.in_progress ∧
      gm2.num_moves = some 0 ∧
      gm2.analyzed_at = some now ∧
      gm2.is_analyzed = true ∧
      (analyze_game_task (some gm) movesTable gid outcome now).2 = movesTable := by
  rcases hfail with ⟨msg, hout⟩ | hout <;> subst hout <;>
    refine ⟨{ gm with
        analysis_state := AState.analyzed
        is_analyzed := true
        num_moves := some 0
        analyzed_at := some now }, ?_, rfl, by simp, rfl, rfl, rfl, ?_⟩ <;>
    simp [analyze_game_task, hstate]

theorem C6_failure_marks_analyzed_witness :
    ((⟨AState.unanalyzed, none, false, none, none, none, none, none, none⟩ :
        GameRow).analysis_state ≠ AState.analyzed) ∧
    (∃ gm2 : GameRow,
      (analyze_game_task
        (some ⟨AState.unanalyzed, none, false, none, none, none, none, none,
          none⟩) [] 5 TaskOutcome.crash 11).1 = some gm2 ∧
      gm2.analysis_state = AState.analyzed ∧
      gm2.analysis_state ≠ AState.in_progress ∧
      gm2.num_moves = some 0 ∧
      gm2.analyzed_at = some 11 ∧
      gm2.is_analyzed = true ∧
      (analyze_game_task
        (some ⟨AState.unanalyzed, none, false, none, none, none, none, none,
          none⟩) [] 5 TaskOutcome.crash 11).2 = []) :=
  ⟨by decide,
    C6_failure_marks_analyzed
      ⟨AState.unanalyzed, none, false, none, none, none, none, none, none⟩ [] 5
      TaskOutcome.crash 11 (by decide) (Or.inr rfl)⟩

/-- C7 (amended): while the user has a job of the same kind in
`{pending, processing}`, both dispatchers refuse with a detail that
references the existing job's id, persist no new job row and enqueue no
task; the import dispatcher refuses with status 409, but the batch-analyze
dispatcher refuses with status 429, not 409. -/
theorem C7_dispatch_conflict_amended (jobs : List (ℕ × JobStatus))
    (handle : Option String) (newId i : ℕ) (st : JobStatus)
    (hactive : findActiveJob jobs = some (i, st)) :
    (import_games_dispatch jobs handle newId =
      (.error (409, importConflictDetail i st), jobs, 0)) ∧
    (analyze_all_dispatch jobs newId =
      (.error (429, analysisConflictDetail i st), jobs, 0)) ∧
    (∃ pre post, importConflictDetail i st = pre ++ toString i ++ post) ∧
    (∃ pre post, analysisConflictDetail i st = pre ++ toString i ++ post) := by
  refine ⟨?_, ?_, ?_, ?_⟩
  · simp [import_games_dispatch, hactive]
  · simp [analyze_all_dispatch, hactive]
  · exact ⟨"You already have an import job in progress. Job #",
      " is currently " ++ statusText st ++ ".", rfl⟩
  · exact ⟨"You already have an analysis job in progress. Job #",
      " is currently " ++ statusText st ++ ".", rfl⟩

theorem C7_dispatch_conflict_amended_witness :
    (findActiveJob [(7, JobStatus.processing)] = some (7, JobStatus.processing)) ∧
    (import_games_dispatch [(7, JobStatus.processing)] (some "user") 9 =
      (.error (409, importConflictDetail 7 JobStatus.processing),
        [(7, JobStatus.processing)], 0)) ∧
    (analyze_all_dispatch [(7, JobStatus.processing)] 9 =
      (.error (429, analysisConflictDetail 7 JobStatus.processing),
        [(7, JobStatus.processing)], 0)) :=
  ⟨rfl,
    (C7_dispatch_conflict_amended [(7, JobStatus.processing)] (some "user") 9 7
      JobStatus.processing rfl).1,
    (C7_dispatch_conflict_amended [(7, JobStatus.processing)] (some "user") 9 7
      JobStatus.processing rfl).2.1⟩

/-- C7 counterexample: with an active analysis job, the batch-analyze
dispatcher answers 429, not the claimed 409. -/
theorem C7_counterexample :
    (analyze_all_dispatch [(7, JobStatus.processing)] 9).1 =
      .error (429, analysisConflictDetail 7 JobStatus.processing) ∧
    (429 : ℕ) ≠ 409 := ⟨rfl, by decide⟩

theorem importLoop_seen_grows (fetched : List FetchedGame) :
    ∀ seen : List (Option String),
      (∀ x, x ∈ seen → x ∈ (importLoop fetched seen).2) ∧
      (∀ gm, gm ∈ fetched → ∀ idStr, gm.chess_com_id = some idStr →
        some idStr ∈ (importLoop fetched seen).2) := by
  induction fetched with
  | nil =>
    intro seen
    exact ⟨fun x hx => hx, fun gm hgm => absurd hgm (by simp)⟩
  | cons gm0 rest ih =>
    intro seen
    cases hid : gm0.chess_com_id with
    | some s0 =>
      by_cases hmem : some s0 ∈ seen
      · have hred : importLoop (gm0 :: rest) seen = importLoop rest seen := by
          simp [importLoop, hid, hmem]
        rw [hred]
        refine ⟨(ih seen).1, ?_⟩
        intro gm hgm idStr hgmid
        rcases List.mem_cons.mp hgm with rfl | hgm2
        · rw [hid] at hgmid
          cases hgmid
          exact (ih seen).1 _ hmem
        · exact (ih seen).2 gm hgm2 idStr hgmid
      · have hred : (importLoop (gm0 :: rest) seen).2 =
            (importLoop rest (some s0 :: seen)).2 := by
          simp [importLoop, hid, hmem]
        rw [hred]
        refine ⟨?_, ?_⟩
        · intro x hx
          exact (ih (some s0 :: seen)).1 x (List.mem_cons_of_mem _ hx)
        · intro gm hgm idStr hgmid
          rcases List.mem_cons.mp hgm with rfl | hgm2
          · rw [hid] at hgmid
            cases hgmid
            exact (ih (some s0 :: seen)).1 _ (List.mem_cons_self _ _)
          · exact (ih (some s0 :: seen)).2 gm hgm2 idStr hgmid
    | none =>
      have hred : (importLoop (gm0 :: rest) seen).2 =
          (importLoop rest (none :: seen)).2 := by
        simp [importLoop, hid]
      rw [hred]
      refine ⟨?_, ?_⟩
      · intro x hx
        exact (ih (none :: seen)).1 x (List.mem_cons_of_mem _ hx)
      · intro gm hgm idStr hgmid
        rcases List.mem_cons.mp hgm with rfl | hgm2
        · rw [hid] at hgmid
          exact Option.noConfusion hgmid
        · exact (ih (none :: seen)).2 gm hgm2 idStr hgmid

theorem importLoop_seen_from (fetched : List FetchedGame) :
    ∀ seen : List (Option String), ∀ x, x ∈ (importLoop fetched seen).2 →
      x ∈ seen ∨ ∃ gm, gm ∈ (importLoop fetched seen).1 ∧
        gm.chess_com_id = x := by
  induction fetched with
  | nil =>
    intro seen x hx
    exact Or.inl hx
  | cons gm0 rest ih =>
    intro seen x hx
    cases hid : gm0.chess_com_id with
    | some s0 =>
      by_cases hmem : some s0 ∈ seen
      · rw [show importLoop (gm0 :: rest) seen = importLoop rest seen by
          simp [importLoop, hid, hmem]] at hx ⊢
        exact ih seen x hx
      · have hred : importLoop (gm0 :: rest) seen =
            (gm0 :: (importLoop rest (some s0 :: seen)).1,
              (importLoop rest (some s0 :: seen)).2) := by
          simp [importLoop, hid, hmem]
        rw [hred] at hx ⊢
        rcases ih (some s0 :: seen) x hx with hseen | ⟨gm, hgm, hgmx⟩
        · rcases List.mem_cons.mp hseen with rfl | hseen2
          · exact Or.inr ⟨gm0, List.mem_cons_self _ _, hid⟩
          · exact Or.inl hseen2
        · exact Or.inr ⟨gm, List.mem_cons_of_mem _ hgm, hgmx⟩
    | none =>
      have hred : importLoop (gm0 :: rest) seen =
          (gm0 :: (importLoop rest (none :: seen)).1,
            (importLoop rest (none :: seen)).2) := by
        simp [importLoop, hid]
      rw [hred] at hx ⊢
      rcases ih (none :: seen) x hx with hseen | ⟨gm, hgm, hgmx⟩
      · rcases List.mem_cons.mp hseen with rfl | hseen2
        · exact Or.inr ⟨gm0, List.mem_cons_self _ _, hid⟩
        · exact Or.inl hseen2
      · exact Or.inr ⟨gm, List.mem_cons_of_mem _ hgm, hgmx⟩

theorem importLoop_inserted_sub (fetched : List FetchedGame) :
    ∀ seen : List (Option String), ∀ gm, gm ∈ (importLoop fetched seen).1 →
      gm ∈ fetched := by
  induction fetched with
  | nil =>
    intro seen gm hgm
    simp [importLoop] at hgm
  | cons gm0 rest ih =>
    intro seen gm hgm
    cases hid : gm0.chess_com_id with
    | some s0 =>
      by_cases hmem : some s0 ∈ seen
      · rw [show importLoop (gm0 :: rest) seen = importLoop rest seen by
          simp [importLoop, hid, hmem]] at hgm
        exact List.mem_cons_of_mem _ (ih seen gm hgm)
      · rw [show importLoop (gm0 :: rest) seen =
            (gm0 :: (importLoop rest (some s0 :: seen)).1,
              (importLoop rest (some s0 :: seen)).2) by
          simp [importLoop, hid, hmem]] at hgm
        rcases List.mem_cons.mp hgm with rfl | hgm2
        · exact List.mem_cons_self _ _
        · exact List.mem_cons_of_mem _ (ih (some s0 :: seen) gm hgm2)
    | none =>
      rw [show importLoop (gm0 :: rest) seen =
          (gm0 :: (importLoop rest (none :: seen)).1,
            (importLoop rest (none :: seen)).2) by
        simp [importLoop, hid]] at hgm
      rcases List.mem_cons.mp hgm with rfl | hgm2
      · exact List.mem_cons_self _ _
      · exact List.mem_cons_of_mem _ (ih (none :: seen) gm hgm2)

theorem importLoop_all_seen (fetched : List FetchedGame) :
    ∀ seen : List (Option String),
      (∀ gm, gm ∈ fetched → ∃ idStr, gm.chess_com_id = some idStr ∧
        some idStr ∈ seen) →
      importLoop fetched seen = ([], seen) := by
  induction fetched with
  | nil =>
    intro seen _
    rfl
  | cons gm0 rest ih =>
    intro seen hall
    obtain ⟨s0, hid, hmem⟩ := hall gm0 (List.mem_cons_self _ _)
    have hred : importLoop (gm0 :: rest) seen = importLoop rest seen := by
      simp [importLoop, hid, hmem]
    rw [hred]
    exact ih seen (fun gm hgm => hall gm (List.mem_cons_of_mem _ hgm))

/-- C9 (amended): re-running `import_games_task` over the same fetched
provider games inserts nothing, provided every fetched game has a truthy
(non-null, non-empty) provider id: every such game is either already stored
or was inserted by the first run, so the skip check fires for all of them
and the second run ends with `new_games_count = 0` and no new rows; games
with a falsy id escape the dedup check (see the counterexample). -/
theorem C9_import_idempotent_amended (storedIds : List (Option String))
    (fetched : List FetchedGame)
    (hids : ∀ gm, gm ∈ fetched → gm.chess_com_id.isSome = true) :
    (import_games_run
      (storedIds ++ (import_games_run storedIds fetched).1.map
        (fun gm => gm.chess_com_id)) fetched).1 = [] ∧
    (import_games_run
      (storedIds ++ (import_games_run storedIds fetched).1.map
        (fun gm => gm.chess_com_id)) fetched).2 = 0 := by
  set seen0 := storedIds.filter (fun o => o.isSome) with hseen0
  have hall : ∀ gm, gm ∈ fetched → ∃ idStr, gm.chess_com_id = some idStr ∧
      some idStr ∈ ((storedIds ++ (import_games_run storedIds fetched).1.map
        (fun gm2 => gm2.chess_com_id)).filter (fun o => o.isSome)) := by
    intro gm hgm
    obtain ⟨idStr, hid⟩ := Option.isSome_iff_exists.mp (hids gm hgm)
    refine ⟨idStr, hid, ?_⟩
    have hin2 : some idStr ∈ (importLoop fetched seen0).2 :=
      (importLoop_seen_grows fetched seen0).2 gm hgm idStr hid
    rcases importLoop_seen_from fetched seen0 (some idStr) hin2 with
      hseen | ⟨gm2, hgm2, hgm2id⟩
    · rw [hseen0] at hseen
      rw [List.mem_filter] at hseen
      rw [List.mem_filter]
      exact ⟨List.mem_append_left _ hseen.1, hseen.2⟩
    · rw [List.mem_filter]
      refine ⟨List.mem_append_right _ ?_, by simp⟩
      rw [List.mem_map]
      exact ⟨gm2, by simpa [import_games_run] using hgm2, hgm2id⟩
  have hrun2 := importLoop_all_seen fetched
    ((storedIds ++ (import_games_run storedIds fetched).1.map
      (fun gm2 => gm2.chess_com_id)).filter (fun o => o.isSome)) hall
  simp only [import_games_run, List.filter_append] at hrun2
  constructor
  · simp only [import_games_run, List.filter_append]
    rw [hrun2]
  · simp only [import_games_run, List.filter_append]
    rw [hrun2]
    rfl

theorem C9_import_idempotent_amended_witness :
    (∀ gm, gm ∈ [(⟨some "g1", 0⟩ : FetchedGame)] →
      gm.chess_com_id.isSome = true) ∧
    (import_games_run [] [(⟨some "g1", 0⟩ : FetchedGame)]).2 = 1 ∧
    (import_games_run
      ([] ++ (import_games_run [] [(⟨some "g1", 0⟩ : FetchedGame)]).1.map
        (fun gm => gm.chess_com_id)) [(⟨some "g1", 0⟩ : FetchedGame)]).1 = [] ∧
    (import_games_run
      ([] ++ (import_games_run [] [(⟨some "g1", 0⟩ : FetchedGame)]).1.map
        (fun gm => gm.chess_com_id)) [(⟨some "g1", 0⟩ : FetchedGame)]).2 = 0 := by
  have happ := C9_import_idempotent_amended [] [(⟨some "g1", 0⟩ : FetchedGame)]
    (by intro gm hgm; simp at hgm; subst hgm; rfl)
  exact ⟨by intro gm hgm; simp at hgm; subst hgm; rfl, by decide, happ.1, happ.2⟩

/-- C9 counterexample: a fetched game with a null provider id is inserted by
both runs — the second run of `import_games_task` over the same single
fetched game reports `new_games_count = 1`, not 0. -/
theorem C9_counterexample :
    (import_games_run [] [(⟨none, 0⟩ : FetchedGame)]).2 = 1 ∧
    (import_games_run
      ([] ++ (import_games_run [] [(⟨none, 0⟩ : FetchedGame)]).1.map
        (fun gm => gm.chess_com_id)) [(⟨none, 0⟩ : FetchedGame)]).2 = 1 ∧
    (1 : ℕ) ≠ 0 := by
  refine ⟨by decide, by decide, by decide⟩

theorem C1_engine_calls_amended_witness :
    ((analyze_game (some ⟨true, [⟨"e4", "e2e4"⟩]⟩) true true engNone
        coachNone).2 ≤ 3 * pgMoves (some ⟨true, [⟨"e4", "e2e4"⟩]⟩)) ∧
    (analyze_game (some ⟨true, [⟨"e4", "e2e4"⟩]⟩) true true engNone coachNone =
      (.ok [oneMoveNoneRec] oneMoveNoneStat, 3)) ∧
    (3 = 3 * ([⟨"e4", "e2e4"⟩] : List MoveIn).length) := by
  refine ⟨(C1_engine_calls_amended (some ⟨true, [⟨"e4", "e2e4"⟩]⟩) true true
    engNone coachNone).1, oneMoveNoneRun_eval, ?_⟩
  have hn := (C1_engine_calls_amended (some ⟨true, [⟨"e4", "e2e4"⟩]⟩) true true
    engNone coachNone).2 ⟨true, [⟨"e4", "e2e4"⟩]⟩ [oneMoveNoneRec]
    oneMoveNoneStat 3 rfl oneMoveNoneRun_eval
  simpa using hn

end ChessGPT
